/-
  Verification of the RSS feed synchronization engine of the
  podcast-platform repository (pkg/content/sync/service.go,
  pkg/content/rss/parser.go, and the SQL schema in the Makefile and
  migrations).

  Shallow embedding notes:
  * `uuid.UUID` values are modelled as `Nat`; freshness of `uuid.New()` is
    modelled by a counter `nextId` together with the hypothesis that all
    existing ids lie below it.
  * `time.Time` values are modelled as `Int` (Unix seconds).  `time.Now()`
    becomes an explicit `now : Int` parameter.  The zero `time.Time`
    (January 1, year 1 UTC) is the constant `goTimeZero`.
  * The relational store is a record of lists; the transactional write
    phase operates on copies that are discarded unless the commit
    succeeds.  `CreateEpisodeTx` enforces the `UNIQUE (podcast_id, guid)`
    constraint declared for the `episodes` table in src/Makefile.
  * Fallible collaborator steps (database begin/exec/commit, fetch+parse)
    are driven by an explicit environment `SyncEnv` choosing which step
    fails, mirroring the error returns in the Go code.
-/
import Mathlib

namespace PodSync

/-! ## Data model (pkg/content/models/models.go, trimmed to the fields the
sync engine reads or writes; joined helper fields `EpisodeCount` and
`Categories` of `Podcast` are never touched by the sync code and are
omitted together with the other CRUD-only fields). -/

/-- `models.Podcast` (fields used by the sync engine). -/
structure Podcast where
  id : Nat
  podcasterID : Nat
  title : String
  description : String
  coverImageURL : String
  rssUrl : String
  websiteURL : String
  language : String
  author : String
  category : String
  subcategory : String
  explicit : Bool
  status : String
  createdAt : Int
  updatedAt : Int
  lastSyncedAt : Option Int
  deriving DecidableEq, Repr

/-- `models.Episode`. -/
structure Episode where
  id : Nat
  podcastID : Nat
  title : String
  description : String
  audioURL : String
  duration : Int
  coverImageURL : String
  publicationDate : Int
  guid : String
  episodeNumber : Option Int
  seasonNumber : Option Int
  transcript : String
  status : String
  createdAt : Int
  updatedAt : Int
  deriving DecidableEq, Repr

/-- `models.RSSFeedItem`: one normalized feed item as produced by
`parser.ParseFeed`. -/
structure RSSFeedItem where
  title : String
  description : String
  audioURL : String
  duration : Int
  coverImageURL : String
  publicationDate : Int
  guid : String
  episodeNumber : Option Int
  seasonNumber : Option Int
  deriving DecidableEq, Repr

/-- `models.RSSFeed`: the normalized feed produced by `parser.ParseFeed`. -/
structure RSSFeed where
  title : String
  description : String
  language : String
  author : String
  coverImageURL : String
  websiteURL : String
  category : String
  subcategory : String
  explicit : Bool
  items : List RSSFeedItem
  deriving DecidableEq, Repr

/-- One row of the `rss_sync_logs` table
(scripts/migrations/000002_add_rss_sync_logs.up.sql): status is either
success or failure, with episode counts and an optional error message. -/
structure SyncLogEntry where
  podcastID : Nat
  success : Bool
  episodesAdded : Nat
  episodesUpdated : Nat
  errorMessage : Option String
  createdAt : Int
  deriving DecidableEq, Repr

/-! ## String helpers shared by the parser (Go standard library behaviour,
re-implemented structurally so that every definition evaluates inside the
kernel). -/

/-- Digits of a decimal literal folded into a `Nat`. -/
def digitsToNat (l : List Char) : Nat :=
  l.foldl (fun a c => a * 10 + (c.toNat - 48)) 0

/-- Go `strconv.Atoi` (i.e. `ParseInt` base 10, 64 bit): optional sign,
then one or more digits, error on anything else or on 64-bit overflow. -/
def goAtoi (s : String) : Except Unit Int :=
  match s.data with
  | [] => .error ()
  | c :: rest =>
    let (neg, digits) :=
      if c = '-' then (true, rest)
      else if c = '+' then (false, rest)
      else (false, c :: rest)
    if digits.isEmpty then .error ()
    else if digits.all Char.isDigit then
      let n : Int := (digitsToNat digits : Nat)
      let v : Int := if neg then -n else n
      if v < -(2 ^ 63) || v > 2 ^ 63 - 1 then .error () else .ok v
    else .error ()

/-- Go `strconv.Atoi` with the error discarded, as in
`hours, _ := strconv.Atoi(parts[0])`: an error leaves 0. -/
def goAtoiOr0 (s : String) : Int :=
  match goAtoi s with
  | .ok n => n
  | .error _ => 0

/-- Go `strings.Split(s, ":")` on the character level. -/
def splitOnColon : List Char → List (List Char)
  | [] => [[]]
  | c :: rest =>
    let r := splitOnColon rest
    if c = ':' then [] :: r
    else
      match r with
      | h :: t => (c :: h) :: t
      | [] => [[c]]

/-- Does `pat` start the list `l`? -/
def startsWithL : List Char → List Char → Bool
  | [], _ => true
  | _ :: _, [] => false
  | p :: ps, c :: cs => p == c && startsWithL ps cs

/-- Worker for Go `strings.ReplaceAll`: replaces every non-overlapping
occurrence of `pat` left to right.  The fuel argument (initialised to one
more than the length of the subject) only serves structural termination;
every recursive call consumes at least one subject character because the
callers never pass an empty `pat`. -/
def replaceAllFuel (pat rep : List Char) : Nat → List Char → List Char
  | 0, l => l
  | _ + 1, [] => []
  | fuel + 1, c :: rest =>
    if startsWithL pat (c :: rest) then
      rep ++ replaceAllFuel pat rep fuel (List.drop pat.length (c :: rest))
    else
      c :: replaceAllFuel pat rep fuel rest

/-- Go `strings.ReplaceAll` (callers in parser.go always pass a non-empty
pattern, so the empty-pattern insertion behaviour of Go is unreachable
and modelled as the identity). -/
def goReplaceAll (s pat rep : String) : String :=
  if pat.data.isEmpty then s
  else String.mk (replaceAllFuel pat.data rep.data (s.data.length + 1) s.data)

/-- Whitespace as trimmed by Go `strings.TrimSpace` (the Latin-1 range of
`unicode.IsSpace`; feed descriptions do not use the exotic Unicode space
code points). -/
def isGoSpace (c : Char) : Bool :=
  c = ' ' || c = '\t' || c = '\n' || c = '\x0b' || c = '\x0c' || c = '\r' ||
  c = '\x85' || c = '\xA0'

/-- Go `strings.TrimSpace`. -/
def trimSpace (s : String) : String :=
  String.mk (((s.data.dropWhile isGoSpace).reverse.dropWhile isGoSpace).reverse)

/-- Worker for the regular expression `<[^>]*>` used by
`cleanHTMLContent`: once a `<` is seen, characters are buffered until a
closing `>` (the whole bracketed run is dropped); a `<` never followed by
`>` does not match the pattern and is emitted verbatim at the end. -/
def stripTagsGo : List Char → Option (List Char) → List Char
  | [], none => []
  | [], some saved => saved.reverse
  | c :: rest, none =>
    if c = '<' then stripTagsGo rest (some [c])
    else c :: stripTagsGo rest none
  | c :: rest, some saved =>
    if c = '>' then stripTagsGo rest none
    else stripTagsGo rest (some (c :: saved))

/-- `regexp.MustCompile("<[^>]*>").ReplaceAllString(content, "")`. -/
def stripTags (s : String) : String :=
  String.mk (stripTagsGo s.data none)

/-- The entity table of `decodeHTMLEntities`, in source listing order.  In
Go this is a map, so the iteration order of the six replacements is
unspecified; definitions below therefore take the order explicitly. -/
def entityPairs : List (String × String) :=
  [("&amp;", "&"), ("&lt;", "<"), ("&gt;", ">"),
   ("&quot;", "\""), ("&#39;", "\x27"), ("&nbsp;", " ")]

/-- `decodeHTMLEntities` run with an explicit replacement order (Go
iterates the entity map in unspecified order). -/
def decodeHTMLEntitiesOrd (order : List (String × String)) (s : String) : String :=
  order.foldl (fun acc p => goReplaceAll acc p.1 p.2) s

/-- `decodeHTMLEntities` with the source listing order. -/
def decodeHTMLEntities (s : String) : String :=
  decodeHTMLEntitiesOrd entityPairs s

/-- `cleanHTMLContent` with an explicit entity-replacement order. -/
def cleanHTMLContentOrd (order : List (String × String)) (s : String) : String :=
  let c1 := goReplaceAll s "<br>" "\n"
  let c2 := goReplaceAll c1 "<br/>" "\n"
  let c3 := goReplaceAll c2 "<br />" "\n"
  let c4 := stripTags c3
  let c5 := decodeHTMLEntitiesOrd order c4
  trimSpace c5

/-- `cleanHTMLContent` (parser.go): line-break conversion, tag stripping,
entity decoding, trim. -/
def cleanHTMLContent (s : String) : String :=
  cleanHTMLContentOrd entityPairs s

/-- ASCII lower-casing on the character level (Go `strings.ToLower` for
the ASCII inputs that occur here). -/
def lowerStr (s : String) : String :=
  String.mk (s.data.map Char.toLower)

/-- `parseBooleanString` (parser.go). -/
def parseBooleanString (s : String) : Bool :=
  let l := lowerStr s
  l == "yes" || l == "true" || l == "1"

/-- `parseDuration` (parser.go): plain integer seconds, else `HH:MM:SS`,
else `MM:SS`, else 0. -/
def parseDuration (duration : String) : Int :=
  if duration = "" then 0
  else
    match goAtoi duration with
    | .ok seconds => seconds
    | .error _ =>
      let parts := (splitOnColon duration.data).map String.mk
      match parts with
      | [h, m, s] => goAtoiOr0 h * 3600 + goAtoiOr0 m * 60 + goAtoiOr0 s
      | [m, s] => goAtoiOr0 m * 60 + goAtoiOr0 s
      | _ => 0

/-! ## Go `time.Parse` for the eight layouts used by `parsePubDate`
(parser.go).  Only the layout tokens occurring in those layouts are
modelled; the semantics of each token follows Go `time/format.go`. -/

/-- The layout tokens occurring in the eight `parsePubDate` formats. -/
inductive GoTok where
  | lit (s : String)
  | weekday3          -- "Mon": short weekday name, case-insensitive
  | dayZero           -- "02": exactly two digits
  | dayVar            -- "2": one or two digits
  | month3            -- "Jan": short month name, case-insensitive
  | monthZero         -- "01": exactly two digits
  | yearLong          -- "2006": exactly four digits
  | yearShort         -- "06": two digits, 69..99 -> 19xx, else 20xx
  | hourVar           -- "15": one or two digits
  | minZero           -- "04": exactly two digits
  | secZero           -- "05": exactly two digits
  | tzNum             -- "-0700": sign and four digits
  | tzColon           -- "-07:00": sign, two digits, colon, two digits
  | tzAbbr            -- "MST": zone abbreviation, offset recorded as 0
  deriving DecidableEq, Repr

/-- Date components accumulated while running a layout
(Go defaults: year 0, month 1, day 1, midnight, UTC). -/
structure GoDate where
  year : Nat := 0
  month : Nat := 1
  day : Nat := 1
  hour : Nat := 0
  minute : Nat := 0
  second : Nat := 0
  offsetSec : Int := 0
  deriving DecidableEq, Repr

/-- Go `getnum`: one or two digits, where `fixed` requires exactly two. -/
def getnum (fixed : Bool) : List Char → Option (Nat × List Char)
  | [] => none
  | c1 :: rest =>
    if c1.isDigit then
      match rest with
      | c2 :: rest2 =>
        if c2.isDigit then some ((c1.toNat - 48) * 10 + (c2.toNat - 48), rest2)
        else if fixed then none
        else some (c1.toNat - 48, rest)
      | [] => if fixed then none else some (c1.toNat - 48, [])
    else none

/-- Take exactly `n` digits (used for the 4-digit year and numeric time
zones). -/
def takeDigits : Nat → List Char → Option (Nat × List Char)
  | 0, l => some (0, l)
  | _ + 1, [] => none
  | n + 1, c :: rest =>
    if c.isDigit then
      match takeDigits n rest with
      | some (v, l) => some ((c.toNat - 48) * 10 ^ n + v, l)
      | none => none
    else none

/-- Case-insensitive match of a three-letter name against a list of
names, as Go `lookup` does over `shortDayNames` / `shortMonthNames`. -/
def lookupName3 (names : List String) (s : List Char) : Option (Nat × List Char) :=
  match s with
  | a :: b :: c :: rest =>
    let w := String.mk [a.toLower, b.toLower, c.toLower]
    let rec go (w : String) (i : Nat) : List String → Option Nat
      | [] => none
      | n :: ns => if lowerStr n == w then some i else go w (i + 1) ns
    match go w 0 names with
    | some i => some (i, rest)
    | none => none
  | _ => none

def shortDayNames : List String :=
  ["Sun", "Mon", "Tue", "Wed", "Thu", "Fri", "Sat"]

def shortMonthNames : List String :=
  ["Jan", "Feb", "Mar", "Apr", "May", "Jun",
   "Jul", "Aug", "Sep", "Oct", "Nov", "Dec"]

/-- Go `leadingInt`: leading decimal digits (overflow elided; the only
caller rejects any value above 23 anyway). -/
def leadingInt (l : List Char) : Nat × List Char :=
  match l with
  | [] => (0, [])
  | c :: rest =>
    if c.isDigit then
      let (v, r) := leadingInt rest
      ((c.toNat - 48) * 10 ^ (rest.length - r.length) + v, r)
    else (0, c :: rest)

/-- Go `parseSignedOffset`: a sign followed by digits whose value is at
most 23; returns the number of characters consumed (0 on failure). -/
def parseSignedOffset (l : List Char) : Nat :=
  match l with
  | [] => 0
  | sign :: rest =>
    if sign = '+' || sign = '-' then
      let (x, rem) := leadingInt rest
      if rem.length = rest.length then 0
      else if x > 23 then 0
      else l.length - rem.length
    else 0

/-- Go `parseGMT`: `GMT` optionally followed by a signed hour offset. -/
def parseGMT (l : List Char) : Nat :=
  let rest := l.drop 3
  if rest.isEmpty then 3 else 3 + parseSignedOffset rest

/-- Count the leading upper-case ASCII letters, stopping at 6. -/
def countUpper (l : List Char) (bound : Nat) : Nat :=
  match bound, l with
  | 0, _ => 0
  | _, [] => 0
  | b + 1, c :: rest =>
    if 'A' ≤ c && c ≤ 'Z' then 1 + countUpper rest b else 0

/-- Go `parseTimeZone`: the number of characters of a zone abbreviation,
or `none` if the input does not start with one. -/
def parseTimeZone (l : List Char) : Option Nat :=
  if l.length < 3 then none
  else if startsWithL "ChST".data l || startsWithL "MeST".data l then some 4
  else if startsWithL "GMT".data l then some (parseGMT l)
  else
    match l with
    | c :: _ =>
      if c = '+' || c = '-' then
        let n := parseSignedOffset l
        if n > 0 then some n else none
      else
        match countUpper l 6 with
        | 3 => some 3
        | 4 =>
          if l.get? 3 = some 'T' || startsWithL "WITA".data l then some 4
          else none
        | 5 => if l.get? 4 = some 'T' then some 5 else none
        | _ => none
    | [] => none

/-- Run one layout token against the input (Go `Parse`, inner loop). -/
def parseTok : GoTok → GoDate → List Char → Option (GoDate × List Char)
  | .lit p, dt, s =>
    if startsWithL p.data s then some (dt, s.drop p.data.length) else none
  | .weekday3, dt, s =>
    match lookupName3 shortDayNames s with
    | some (_, rest) => some (dt, rest)
    | none => none
  | .dayZero, dt, s =>
    match getnum true s with
    | some (d, rest) => some ({ dt with day := d }, rest)
    | none => none
  | .dayVar, dt, s =>
    match getnum false s with
    | some (d, rest) => some ({ dt with day := d }, rest)
    | none => none
  | .month3, dt, s =>
    match lookupName3 shortMonthNames s with
    | some (i, rest) => some ({ dt with month := i + 1 }, rest)
    | none => none
  | .monthZero, dt, s =>
    match getnum true s with
    | some (m, rest) => some ({ dt with month := m }, rest)
    | none => none
  | .yearLong, dt, s =>
    match takeDigits 4 s with
    | some (y, rest) => some ({ dt with year := y }, rest)
    | none => none
  | .yearShort, dt, s =>
    match getnum true s with
    | some (y, rest) =>
      some ({ dt with year := if y ≥ 69 then 1900 + y else 2000 + y }, rest)
    | none => none
  | .hourVar, dt, s =>
    match getnum false s with
    | some (h, rest) => some ({ dt with hour := h }, rest)
    | none => none
  | .minZero, dt, s =>
    match getnum true s with
    | some (m, rest) => some ({ dt with minute := m }, rest)
    | none => none
  | .secZero, dt, s =>
    match getnum true s with
    | some (v, rest) =>
      -- Go `Parse` accepts a fractional second directly after the seconds
      -- field even when the layout has no fractional-second token (none of
      -- the eight layouts here has one): a comma or period followed by at
      -- least one digit, with every following digit consumed.  The
      -- sub-second value lies below the Unix-seconds abstraction of
      -- `time.Time` used here and is discarded.
      let rest2 :=
        match rest with
        | sep :: d :: _ =>
          if (sep == '.' || sep == ',') && d.isDigit then
            (rest.drop 1).dropWhile Char.isDigit
          else rest
        | _ => rest
      some ({ dt with second := v }, rest2)
    | none => none
  | .tzNum, dt, s =>
    match s with
    | sign :: rest =>
      if sign = '+' || sign = '-' then
        match takeDigits 2 rest with
        | some (hh, rest2) =>
          match takeDigits 2 rest2 with
          | some (mm, rest3) =>
            let off : Int := (hh : Int) * 3600 + (mm : Int) * 60
            some ({ dt with offsetSec := if sign = '-' then -off else off }, rest3)
          | none => none
        | none => none
      else none
    | [] => none
  | .tzColon, dt, s =>
    match s with
    | sign :: rest =>
      if sign = '+' || sign = '-' then
        match takeDigits 2 rest with
        | some (hh, rest2) =>
          match rest2 with
          | ':' :: rest3 =>
            match takeDigits 2 rest3 with
            | some (mm, rest4) =>
              let off : Int := (hh : Int) * 3600 + (mm : Int) * 60
              some ({ dt with offsetSec := if sign = '-' then -off else off }, rest4)
            | none => none
          | _ => none
        | none => none
      else none
    | [] => none
  | .tzAbbr, dt, s =>
    if startsWithL "UTC".data s then some (dt, s.drop 3)
    else
      match parseTimeZone s with
      | some n => some (dt, s.drop n)   -- unknown abbreviation: offset 0
      | none => none

/-- Run a whole layout; the input must be consumed exactly
(Go rejects leftover text with an `extra text` error). -/
def runLayout : List GoTok → GoDate → List Char → Option GoDate
  | [], dt, [] => some dt
  | [], _, _ :: _ => none
  | t :: ts, dt, s =>
    match parseTok t dt s with
    | some (dt2, s2) => runLayout ts dt2 s2
    | none => none

/-- Gregorian leap year. -/
def isLeapYear (y : Nat) : Bool :=
  y % 4 = 0 && (y % 100 ≠ 0 || y % 400 = 0)

/-- Days in a month (Go `daysIn`). -/
def daysIn (m y : Nat) : Nat :=
  if m = 2 then (if isLeapYear y then 29 else 28)
  else if m = 4 || m = 6 || m = 9 || m = 11 then 30
  else 31

/-- Days from the civil date to the Unix epoch (standard civil-from-days
computation, floor division so that year 1 works). -/
def daysFromCivil (y m d : Int) : Int :=
  let y2 := if m ≤ 2 then y - 1 else y
  let era := Int.fdiv y2 400
  let yoe := y2 - era * 400
  let mp := if m > 2 then m - 3 else m + 9
  let doy := Int.fdiv (153 * mp + 2) 5 + d - 1
  let doe := yoe * 365 + Int.fdiv yoe 4 - Int.fdiv yoe 100 + doy
  era * 146097 + doe - 719468

/-- Unix seconds of a parsed date. -/
def dateToUnix (dt : GoDate) : Int :=
  daysFromCivil dt.year dt.month dt.day * 86400 +
    (dt.hour : Int) * 3600 + (dt.minute : Int) * 60 + (dt.second : Int) -
    dt.offsetSec

/-- The zero `time.Time` (January 1 of year 1, UTC) in Unix seconds;
`t.IsZero()` is modelled as equality with this constant. -/
def goTimeZero : Int := dateToUnix { year := 1 }

/-- Go `time.Parse` for one of the eight layouts: run the layout, then
apply the range validation Go performs (month, day in month, hour,
minute, second). -/
def goTimeParse (layout : List GoTok) (s : String) : Option Int :=
  match runLayout layout {} s.data with
  | none => none
  | some dt =>
    if dt.month < 1 || dt.month > 12 then none
    else if dt.day < 1 || dt.day > daysIn dt.month dt.year then none
    else if dt.hour > 23 || dt.minute > 59 || dt.second > 59 then none
    else some (dateToUnix dt)

/-- `time.RFC1123Z` = `"Mon, 02 Jan 2006 15:04:05 -0700"`. -/
def layoutRFC1123Z : List GoTok :=
  [.weekday3, .lit ", ", .dayZero, .lit " ", .month3, .lit " ", .yearLong,
   .lit " ", .hourVar, .lit ":", .minZero, .lit ":", .secZero, .lit " ", .tzNum]

/-- `time.RFC1123` = `"Mon, 02 Jan 2006 15:04:05 MST"`. -/
def layoutRFC1123 : List GoTok :=
  [.weekday3, .lit ", ", .dayZero, .lit " ", .month3, .lit " ", .yearLong,
   .lit " ", .hourVar, .lit ":", .minZero, .lit ":", .secZero, .lit " ", .tzAbbr]

/-- `time.RFC822Z` = `"02 Jan 06 15:04 -0700"`. -/
def layoutRFC822Z : List GoTok :=
  [.dayZero, .lit " ", .month3, .lit " ", .yearShort, .lit " ", .hourVar,
   .lit ":", .minZero, .lit " ", .tzNum]

/-- `time.RFC822` = `"02 Jan 06 15:04 MST"`. -/
def layoutRFC822 : List GoTok :=
  [.dayZero, .lit " ", .month3, .lit " ", .yearShort, .lit " ", .hourVar,
   .lit ":", .minZero, .lit " ", .tzAbbr]

/-- `"Mon, 2 Jan 2006 15:04:05 -0700"` (single-digit-day variant). -/
def layoutDayVar : List GoTok :=
  [.weekday3, .lit ", ", .dayVar, .lit " ", .month3, .lit " ", .yearLong,
   .lit " ", .hourVar, .lit ":", .minZero, .lit ":", .secZero, .lit " ", .tzNum]

/-- `"2006-01-02T15:04:05-07:00"` (ISO-8601 with offset). -/
def layoutISO : List GoTok :=
  [.yearLong, .lit "-", .monthZero, .lit "-", .dayZero, .lit "T", .hourVar,
   .lit ":", .minZero, .lit ":", .secZero, .tzColon]

/-- `"2006-01-02 15:04:05"`. -/
def layoutSQL : List GoTok :=
  [.yearLong, .lit "-", .monthZero, .lit "-", .dayZero, .lit " ", .hourVar,
   .lit ":", .minZero, .lit ":", .secZero]

/-- The format list of `parsePubDate`, in source order (the fifth layout
literal in the source repeats `RFC1123Z`). -/
def pubDateLayouts : List (List GoTok) :=
  [layoutRFC1123Z, layoutRFC1123, layoutRFC822Z, layoutRFC822,
   layoutRFC1123Z, layoutDayVar, layoutISO, layoutSQL]

/-- First successful parse over a list of layouts. -/
def firstParse (layouts : List (List GoTok)) (s : String) : Option Int :=
  match layouts with
  | [] => none
  | l :: rest =>
    match goTimeParse l s with
    | some t => some t
    | none => firstParse rest s

/-- `parsePubDate` (parser.go): empty string is an error, otherwise the
formats are tried in order and the first success wins. -/
def parsePubDate (pubDate : String) : Option Int :=
  if pubDate = "" then none
  else firstParse pubDateLayouts pubDate

/-! ## `parser.ParseFeed` after XML decoding (parser.go).  The XML decode
step itself (Go `encoding/xml` in non-strict mode) is outside the scope of
the claims; the embedding starts from the decoded `rssChannel` value.
Only the decoded fields the conversion reads are kept (`link`, `author`,
`subtitle` and `explicit` of `rssItem` are decoded but never read). -/

/-- `rssItem` (decoded XML item), restricted to the fields read by
`ParseFeed`. -/
structure RssItem where
  title : String
  description : String
  guid : String
  pubDate : String
  duration : String
  summary : String
  enclosureURL : String
  itunesImageHref : String
  itunesEpisode : String
  itunesSeason : String
  content : String
  deriving DecidableEq, Repr

/-- `rssCategory` (decoded `itunes:category`). -/
structure RssCategory where
  text : String
  attrText : String
  subText : Option String   -- nested category text attribute, when present
  deriving DecidableEq, Repr

/-- `rssChannel` (decoded XML channel), restricted to the fields read by
`ParseFeed`. -/
structure RssChannel where
  title : String
  description : String
  link : String
  language : String
  author : String
  ownerName : String
  categories : List RssCategory
  explicit : String
  imageURL : String
  itunesImageHref : String
  itunesAuthor : String
  items : List RssItem
  deriving DecidableEq, Repr

/-- Conversion of one valid decoded item into a `RSSFeedItem`
(parser.go, body of the item loop after the required-field check). -/
def convertItem (feedCover : String) (now : Int) (it : RssItem) : RSSFeedItem :=
  let desc :=
    if it.summary ≠ "" then it.summary
    else if it.description ≠ "" then it.description
    else if it.content ≠ "" then it.content
    else ""
  { title := it.title
    guid := it.guid
    audioURL := it.enclosureURL
    description := cleanHTMLContent desc
    duration := parseDuration it.duration
    publicationDate :=
      match parsePubDate it.pubDate with
      | some t => t
      | none => now
    coverImageURL :=
      if it.itunesImageHref ≠ "" then it.itunesImageHref else feedCover
    episodeNumber :=
      if it.itunesEpisode ≠ "" then
        match goAtoi it.itunesEpisode with
        | .ok n => some n
        | .error _ => none
      else none
    seasonNumber :=
      if it.itunesSeason ≠ "" then
        match goAtoi it.itunesSeason with
        | .ok n => some n
        | .error _ => none
      else none }

/-- The item loop of `ParseFeed`: items missing the enclosure URL or the
GUID are skipped with `continue`, all others are converted and appended. -/
def convertItems (feedCover : String) (now : Int) : List RssItem → List RSSFeedItem
  | [] => []
  | it :: rest =>
    if it.enclosureURL = "" ∨ it.guid = "" then convertItems feedCover now rest
    else convertItem feedCover now it :: convertItems feedCover now rest

/-- `ParseFeed` after XML decoding: reject a channel without a title,
resolve category/author/cover fallback chains, convert the items. -/
def parseChannel (ch : RssChannel) (now : Int) : Except String RSSFeed :=
  if ch.title = "" then
    .error "feed has no content or is not a valid podcast feed"
  else
    let category :=
      match ch.categories with
      | [] => ("", "")
      | mc :: _ =>
        let cat :=
          if mc.attrText ≠ "" then mc.attrText
          else if mc.text ≠ "" then mc.text
          else ""
        let sub :=
          match mc.subText with
          | some t => if t ≠ "" then t else ""
          | none => ""
        (cat, sub)
    let author :=
      if ch.author ≠ "" then ch.author
      else if ch.itunesAuthor ≠ "" then ch.itunesAuthor
      else if ch.ownerName ≠ "" then ch.ownerName
      else ch.title
    let cover :=
      if ch.itunesImageHref ≠ "" then ch.itunesImageHref
      else if ch.imageURL ≠ "" then ch.imageURL
      else ""
    .ok
      { title := ch.title
        description := ch.description
        language := ch.language
        websiteURL := ch.link
        explicit := parseBooleanString ch.explicit
        category := category.1
        subcategory := category.2
        author := author
        coverImageURL := cover
        items := convertItems cover now ch.items }

/-! ## The sync service (pkg/content/sync/service.go, `SyncPodcast`). -/

/-- The persistent relational store: podcasts, episodes and the
append-only `rss_sync_logs` rows. -/
structure StoreState where
  podcasts : List Podcast
  episodes : List Episode
  syncLogs : List SyncLogEntry
  deriving DecidableEq, Repr

/-- Which fallible collaborator steps fail during one `SyncPodcast`
attempt.  `parseResult` is the outcome of `parser.ParseFeed` (fetch and
parse combined, as in the source); the Bool fields model database errors
of the corresponding store calls. -/
structure SyncEnv where
  getPodcastFails : Bool
  parseResult : Except String RSSFeed
  beginTxFails : Bool
  updatePodcastFails : Bool
  getEpisodesFails : Bool
  commitFails : Bool
  deriving Repr

/-- The terminal state of one `SyncPodcast` attempt, one constructor per
return path of the Go function. -/
inductive SyncOutcome where
  | inProgress                       -- concurrency guard rejection
  | loadFailed                       -- GetPodcastByID failed
  | noRSSUrl                         -- podcast has no RSS URL
  | parseFailed (msg : String)       -- fetch or parse failed
  | txBeginFailed
  | updatePodcastFailed
  | getEpisodesFailed
  | commitFailed
  | committed (added updated : Nat)  -- success
  deriving DecidableEq, Repr

/-- Result of one `SyncPodcast` call: the outcome, the store after the
call, and the guard map after the deferred `syncMutex.Delete`. -/
structure SyncReturn where
  outcome : SyncOutcome
  state : StoreState
  guard : List Nat
  deriving DecidableEq, Repr

/-- Modelled from the spec: `logSyncFailure` (its body is not under src/;
spec section 4.5: the recorder appends one `SyncLogEntry` capturing
status, counts and the error message, non-transactionally). -/
def failLog (pid : Nat) (added updated : Nat) (msg : String) (now : Int) :
    SyncLogEntry :=
  { podcastID := pid, success := false, episodesAdded := added,
    episodesUpdated := updated, errorMessage := some msg, createdAt := now }

/-- Modelled from the spec: `logSyncSuccess` (its body is not under src/;
spec section 4.5), appending one success entry with the counts. -/
def successLog (pid : Nat) (added updated : Nat) (now : Int) : SyncLogEntry :=
  { podcastID := pid, success := true, episodesAdded := added,
    episodesUpdated := updated, errorMessage := none, createdAt := now }

/-- `GetPodcastByID` on the store (first row with the id). -/
def findPodcast (l : List Podcast) (pid : Nat) : Option Podcast :=
  l.find? (fun p => p.id == pid)

/-- The episodes of one podcast, as loaded by
`GetAllEpisodesByPodcastIDTx`. -/
def episodesOfP (l : List Episode) (pid : Nat) : List Episode :=
  l.filter (fun e => e.podcastID == pid)

/-- The lookup map `existingEpisodeMap`: built by iterating the loaded
episodes and overwriting on duplicate GUIDs, so the last occurrence
wins. -/
def lookupGuid (l : List Episode) (g : String) : Option Episode :=
  l.reverse.find? (fun e => e.guid == g)

/-- Podcast metadata reconciliation (service.go lines 96-150): each field
is overwritten when the feed value is non-empty and differs; the explicit
flag is overwritten whenever it differs; `LastSyncedAt` is always set.
The Go code threads a mutable copy through one `if` per field; since
every condition reads only the original `podcast`, this is the same
record update. -/
def reconcilePodcast (p : Podcast) (f : RSSFeed) (now : Int) : Podcast :=
  { p with
    title := if f.title ≠ "" ∧ f.title ≠ p.title then f.title else p.title
    description :=
      if f.description ≠ "" ∧ f.description ≠ p.description then f.description
      else p.description
    language :=
      if f.language ≠ "" ∧ f.language ≠ p.language then f.language
      else p.language
    author :=
      if f.author ≠ "" ∧ f.author ≠ p.author then f.author else p.author
    coverImageURL :=
      if f.coverImageURL ≠ "" ∧ f.coverImageURL ≠ p.coverImageURL then
        f.coverImageURL
      else p.coverImageURL
    websiteURL :=
      if f.websiteURL ≠ "" ∧ f.websiteURL ≠ p.websiteURL then f.websiteURL
      else p.websiteURL
    category :=
      if f.category ≠ "" ∧ f.category ≠ p.category then f.category
      else p.category
    subcategory :=
      if f.subcategory ≠ "" ∧ f.subcategory ≠ p.subcategory then f.subcategory
      else p.subcategory
    explicit := if f.explicit ≠ p.explicit then f.explicit else p.explicit
    lastSyncedAt := some now }

/-- The per-field episode diff (service.go lines 184-232): one condition
per field, each reading only `existingEpisode` and the item; the returned
flag is the disjunction of the conditions, the returned episode the
updated copy (`UpdatedAt` is set by the caller when the flag is true). -/
def diffEpisode (e0 : Episode) (it : RSSFeedItem) : Bool × Episode :=
  let c1 := it.title ≠ "" ∧ it.title ≠ e0.title
  let c2 := it.description ≠ "" ∧ it.description ≠ e0.description
  let c3 := it.audioURL ≠ "" ∧ it.audioURL ≠ e0.audioURL
  let c4 := it.duration > 0 ∧ it.duration ≠ e0.duration
  let c5 := it.coverImageURL ≠ "" ∧ it.coverImageURL ≠ e0.coverImageURL
  let c6 := it.publicationDate ≠ goTimeZero ∧
            it.publicationDate ≠ e0.publicationDate
  let c7 : Bool :=
    match it.episodeNumber, e0.episodeNumber with
    | some a, some b => a != b
    | some _, none => true
    | none, _ => false
  let c8 : Bool :=
    match it.seasonNumber, e0.seasonNumber with
    | some a, some b => a != b
    | some _, none => true
    | none, _ => false
  (decide c1 || decide c2 || decide c3 || decide c4 || decide c5 ||
     decide c6 || c7 || c8,
   { e0 with
     title := if c1 then it.title else e0.title
     description := if c2 then it.description else e0.description
     audioURL := if c3 then it.audioURL else e0.audioURL
     duration := if c4 then it.duration else e0.duration
     coverImageURL := if c5 then it.coverImageURL else e0.coverImageURL
     publicationDate :=
       if c6 then it.publicationDate else e0.publicationDate
     episodeNumber := if c7 then it.episodeNumber else e0.episodeNumber
     seasonNumber := if c8 then it.seasonNumber else e0.seasonNumber })

/-- The new episode built for an unseen GUID (service.go lines 239-255);
the id stands for `uuid.New()`. -/
def newEpisode (pid freshId : Nat) (it : RSSFeedItem) (now : Int) : Episode :=
  { id := freshId
    podcastID := pid
    title := it.title
    description := it.description
    audioURL := it.audioURL
    duration := it.duration
    coverImageURL := it.coverImageURL
    publicationDate := it.publicationDate
    guid := it.guid
    episodeNumber := it.episodeNumber
    seasonNumber := it.seasonNumber
    transcript := ""
    status := "active"
    createdAt := now
    updatedAt := now }

/-- The mutable state of the episode loop: the episode table inside the
open transaction, the two counters, and the uuid counter. -/
structure LoopS where
  eps : List Episode
  added : Nat
  updatedCount : Nat
  nextId : Nat
  deriving DecidableEq, Repr

/-- One iteration of the episode loop (service.go lines 179-262).
`initP` is the episode list loaded at the start of the transaction: the
lookup map is built once from it and never updated afterwards.
`UpdateEpisodeTx` (modelled from the spec: plain row update by id, store
interface of spec section 6) succeeds; `CreateEpisodeTx` (modelled from
the spec and the schema: insert subject to `UNIQUE (podcast_id, guid)`
from src/Makefile) fails on a duplicate pair, which the Go code logs and
skips with `continue`. -/
def processItem (pid : Nat) (initP : List Episode) (now : Int)
    (S : LoopS) (it : RSSFeedItem) : LoopS :=
  if it.guid = "" then S
  else
    match lookupGuid initP it.guid with
    | some e0 =>
      let d := diffEpisode e0 it
      if d.1 then
        { S with
          eps := S.eps.map fun e =>
            if e.id = e0.id then { d.2 with updatedAt := now } else e
          updatedCount := S.updatedCount + 1 }
      else S
    | none =>
      let ne := newEpisode pid S.nextId it now
      if S.eps.any (fun e => e.podcastID == ne.podcastID && e.guid == ne.guid) then
        { S with nextId := S.nextId + 1 }
      else
        { S with eps := S.eps ++ [ne], added := S.added + 1,
                 nextId := S.nextId + 1 }

/-- The body of `SyncPodcast` after the concurrency guard: load the
podcast, check the feed URL, fetch+parse, open the transaction, write the
reconciled metadata, load the existing episodes, run the episode loop,
commit.  Writes inside the transaction live on copies that are dropped
unless the commit succeeds; the sync-log writes are non-transactional and
survive a rollback. -/
def syncAttempt (env : SyncEnv) (st : StoreState) (pid : Nat) (now : Int)
    (nextId : Nat) : SyncOutcome × StoreState :=
  if env.getPodcastFails then (.loadFailed, st)
  else
    match findPodcast st.podcasts pid with
    | none => (.loadFailed, st)
    | some p =>
      if p.rssUrl = "" then (.noRSSUrl, st)
      else
        match env.parseResult with
        | .error msg =>
          (.parseFailed msg,
           { st with syncLogs := st.syncLogs ++ [failLog pid 0 0 msg now] })
        | .ok feed =>
          if env.beginTxFails then
            (.txBeginFailed,
             { st with syncLogs :=
                 st.syncLogs ++ [failLog pid 0 0 "Failed to start transaction" now] })
          else
            let p' := reconcilePodcast p feed now
            if env.updatePodcastFails then
              (.updatePodcastFailed,
               { st with syncLogs :=
                   st.syncLogs ++
                     [failLog pid 0 0 "Failed to update podcast metadata" now] })
            else
              let txPodcasts :=
                st.podcasts.map fun q => if q.id = p'.id then p' else q
              if env.getEpisodesFails then
                (.getEpisodesFailed,
                 { st with syncLogs :=
                     st.syncLogs ++
                       [failLog pid 0 0 "Failed to get existing episodes" now] })
              else
                let initP := episodesOfP st.episodes pid
                let final :=
                  feed.items.foldl (processItem pid initP now)
                    { eps := st.episodes, added := 0, updatedCount := 0,
                      nextId := nextId }
                if env.commitFails then
                  (.commitFailed,
                   { st with syncLogs :=
                       st.syncLogs ++
                         [failLog pid final.added final.updatedCount
                            "Failed to commit transaction" now] })
                else
                  (.committed final.added final.updatedCount,
                   { podcasts := txPodcasts
                     episodes := final.eps
                     syncLogs :=
                       st.syncLogs ++
                         [successLog pid final.added final.updatedCount now] })

/-- `SyncPodcast` (service.go lines 56-281): `syncMutex.LoadOrStore`
rejects a podcast id already in the guard; otherwise the attempt runs and
the deferred `syncMutex.Delete` restores the guard on every exit path. -/
def syncPodcast (env : SyncEnv) (st : StoreState) (guard : List Nat)
    (pid : Nat) (now : Int) (nextId : Nat) : SyncReturn :=
  if pid ∈ guard then { outcome := .inProgress, state := st, guard := guard }
  else
    let r := syncAttempt env st pid now nextId
    { outcome := r.1, state := r.2, guard := guard }

/-- The environment of a run whose fetch, parse and database steps all
succeed. -/
def envOk (f : RSSFeed) : SyncEnv :=
  { getPodcastFails := false, parseResult := .ok f, beginTxFails := false,
    updatePodcastFails := false, getEpisodesFails := false,
    commitFails := false }

/-! ## Claims about duration parsing and description cleaning. -/

/-- C8: `parseDuration` tries plain integer seconds, then `HH:MM:SS`,
then `MM:SS`, yielding 90, 5400, 330 and 0 on the four spec inputs, and
returns an integer (0 on unparseable input) for every string, never an
error. -/
theorem parseDuration_precedence :
    parseDuration "90" = 90 ∧
    parseDuration "01:30:00" = 5400 ∧
    parseDuration "05:30" = 330 ∧
    parseDuration "garbage" = 0 ∧
    parseDuration "" = 0 ∧
    parseDuration "1:02:03" = 3723 ∧
    parseDuration "x:y" = 0 ∧
    ∀ s : String, ∃ n : Int, parseDuration s = n := by
  refine ⟨by decide, by decide, by decide, by decide, by decide, by decide,
    by decide, fun s => ⟨parseDuration s, rfl⟩⟩

/-- The entity table in a different (equally legitimate) Go map iteration
order: `&lt;` is applied before `&amp;`. -/
def entityPairsSwapped : List (String × String) :=
  [("&lt;", "<"), ("&amp;", "&"), ("&gt;", ">"),
   ("&quot;", "\""), ("&#39;", "\x27"), ("&nbsp;", " ")]

/-- C10 counterexample: the six entity replacements of
`decodeHTMLEntities` do not commute.  On the nested entity `&amp;lt;`,
iterating the map with `&amp;` first yields `<`, while iterating with
`&lt;` first yields `&lt;`; since Go map iteration order is unspecified,
two evaluations of `cleanHTMLContent` can disagree. -/
theorem decode_entities_order_dependent :
    decodeHTMLEntitiesOrd entityPairs "&amp;lt;" = "<" ∧
    decodeHTMLEntitiesOrd entityPairsSwapped "&amp;lt;" = "&lt;" ∧
    cleanHTMLContentOrd entityPairs "&amp;lt;" ≠
      cleanHTMLContentOrd entityPairsSwapped "&amp;lt;" := by
  refine ⟨by decide, by decide, by decide⟩

/-- C10 (amended): description cleaning is deterministic only relative to
a fixed entity-replacement order.  For each fixed order the pipeline is a
pure function of the input; the listing order decodes the six entities as
documented, but a different map iteration order gives a different result
on nested entities such as `&amp;lt;`. -/
theorem clean_html_fixed_order_results :
    cleanHTMLContentOrd entityPairs "&amp;lt;" = "<" ∧
    cleanHTMLContentOrd entityPairsSwapped "&amp;lt;" = "&lt;" ∧
    cleanHTMLContent "&lt;b&gt;hello&nbsp;&amp;&nbsp;bye&lt;/b&gt;" =
      "<b>hello & bye</b>" ∧
    cleanHTMLContent " <p>A &quot;q&quot; B</p><br>C " = "A \"q\" B\nC" ∧
    ∀ s : String, cleanHTMLContent s = cleanHTMLContentOrd entityPairs s := by
  refine ⟨by decide, by decide, by decide, by decide, fun s => rfl⟩

/-! ## Claims about metadata reconciliation (C6). -/

/-- A podcast whose stored explicit flag is `true`. -/
def pExplicit : Podcast :=
  { id := 1, podcasterID := 7, title := "T", description := "D",
    coverImageURL := "C", rssUrl := "http://feed", websiteURL := "W",
    language := "en", author := "A", category := "cat", subcategory := "sub",
    explicit := true, status := "active", createdAt := 0, updatedAt := 0,
    lastSyncedAt := none }

/-- A feed carrying only default values: every string empty and the
explicit flag `false` (the Bool default). -/
def fDefault : RSSFeed :=
  { title := "", description := "", language := "", author := "",
    coverImageURL := "", websiteURL := "", category := "", subcategory := "",
    explicit := false, items := [] }

/-- C6 counterexample: the explicit flag does not follow the
"non-default AND different" rule.  With a stored flag `true` and a feed
flag `false` (the default value), reconciliation overwrites the stored
flag anyway, because the source only tests `feed.Explicit !=
podcast.Explicit`. -/
theorem reconcile_explicit_default_overwrite :
    fDefault.explicit = false ∧
    pExplicit.explicit = true ∧
    (reconcilePodcast pExplicit fDefault 5).explicit ≠ pExplicit.explicit := by
  refine ⟨rfl, rfl, by decide⟩

/-- C6 (amended): every string metadata field is overwritten exactly when
the feed value is non-empty and differs from the stored value; the
explicit flag is overwritten whenever it differs (so the result always
carries the feed flag, including the default `false`); `last_synced_at`
is always set to now; identity and ownership fields are untouched. -/
theorem reconcilePodcast_field_rules (p : Podcast) (f : RSSFeed) (now : Int) :
    (reconcilePodcast p f now).title =
      (if f.title ≠ "" ∧ f.title ≠ p.title then f.title else p.title) ∧
    (reconcilePodcast p f now).description =
      (if f.description ≠ "" ∧ f.description ≠ p.description then
        f.description else p.description) ∧
    (reconcilePodcast p f now).language =
      (if f.language ≠ "" ∧ f.language ≠ p.language then f.language
       else p.language) ∧
    (reconcilePodcast p f now).author =
      (if f.author ≠ "" ∧ f.author ≠ p.author then f.author else p.author) ∧
    (reconcilePodcast p f now).coverImageURL =
      (if f.coverImageURL ≠ "" ∧ f.coverImageURL ≠ p.coverImageURL then
        f.coverImageURL else p.coverImageURL) ∧
    (reconcilePodcast p f now).websiteURL =
      (if f.websiteURL ≠ "" ∧ f.websiteURL ≠ p.websiteURL then f.websiteURL
       else p.websiteURL) ∧
    (reconcilePodcast p f now).category =
      (if f.category ≠ "" ∧ f.category ≠ p.category then f.category
       else p.category) ∧
    (reconcilePodcast p f now).subcategory =
      (if f.subcategory ≠ "" ∧ f.subcategory ≠ p.subcategory then
        f.subcategory else p.subcategory) ∧
    (reconcilePodcast p f now).explicit = f.explicit ∧
    (reconcilePodcast p f now).lastSyncedAt = some now ∧
    (reconcilePodcast p f now).id = p.id ∧
    (reconcilePodcast p f now).podcasterID = p.podcasterID ∧
    (reconcilePodcast p f now).rssUrl = p.rssUrl ∧
    (reconcilePodcast p f now).status = p.status ∧
    (reconcilePodcast p f now).createdAt = p.createdAt ∧
    (reconcilePodcast p f now).updatedAt = p.updatedAt := by
  refine ⟨rfl, rfl, rfl, rfl, rfl, rfl, rfl, rfl, ?_, rfl, rfl, rfl, rfl,
    rfl, rfl, rfl⟩
  by_cases h : f.explicit = p.explicit
  · simp [reconcilePodcast, h]
  · simp [reconcilePodcast, h]

/-! ## Claims about the item loop of `ParseFeed` (C7) and the date
fallback (C9). -/

/-- The item loop is the filter of the valid items followed by the
conversion. -/
theorem convertItems_filter_map (cover : String) (now : Int) (l : List RssItem) :
    convertItems cover now l =
      (l.filter fun it => it.enclosureURL != "" && it.guid != "").map
        (convertItem cover now) := by
  induction l with
  | nil => rfl
  | cons it rest ih =>
    by_cases h : it.enclosureURL = "" ∨ it.guid = ""
    · have hb : (it.enclosureURL != "" && it.guid != "") = false := by
        rcases h with h | h <;> simp [h]
      simp [convertItems, h, List.filter_cons, hb, ih]
    · push_neg at h
      have hb : (it.enclosureURL != "" && it.guid != "") = true := by
        simp [h.1, h.2]
      have h2 : ¬(it.enclosureURL = "" ∨ it.guid = "") := by
        push_neg; exact h
      simp [convertItems, h2, List.filter_cons, hb, ih]

/-- Every valid decoded item appears (converted) in the loop output. -/
theorem mem_convertItems (cover : String) (now : Int) (l : List RssItem)
    (it : RssItem) (hm : it ∈ l) (he : it.enclosureURL ≠ "")
    (hgd : it.guid ≠ "") : convertItem cover now it ∈ convertItems cover now l := by
  rw [convertItems_filter_map]
  exact List.mem_map_of_mem _ (List.mem_filter.2 ⟨hm, by simp [he, hgd]⟩)

/-- C7: an item missing the enclosure URL or the GUID is omitted from the
normalized item list; every item carrying both is included (converted in
order); consequently every normalized item has a non-empty audio URL and
GUID, so a skipped item can never reach reconciliation. -/
theorem parseChannel_required_field_filter (ch : RssChannel) (now : Int)
    (f : RSSFeed) (h : parseChannel ch now = Except.ok f) :
    f.items =
      (ch.items.filter fun it => it.enclosureURL != "" && it.guid != "").map
        (convertItem f.coverImageURL now) ∧
    (∀ it ∈ ch.items, it.enclosureURL ≠ "" → it.guid ≠ "" →
      convertItem f.coverImageURL now it ∈ f.items) ∧
    (∀ x ∈ f.items, x.audioURL ≠ "" ∧ x.guid ≠ "") := by
  by_cases ht : ch.title = ""
  · simp [parseChannel, ht] at h
  · simp only [parseChannel, ht, if_neg, ite_false, Except.ok.injEq] at h
    subst h
    refine ⟨convertItems_filter_map _ _ _, ?_, ?_⟩
    · intro it hm he hgd
      exact mem_convertItems _ _ _ _ hm he hgd
    · intro x hx
      rw [convertItems_filter_map] at hx
      obtain ⟨it, hit, rfl⟩ := List.mem_map.1 hx
      have := List.mem_filter.1 hit
      have h2 := this.2
      simp only [Bool.and_eq_true, bne_iff_ne, ne_eq] at h2
      exact ⟨h2.1, h2.2⟩

/-- `firstParse` returns the first layout that succeeds: any success is
the success of some layout all of whose predecessors fail. -/
theorem firstParse_some_first (layouts : List (List GoTok)) (s : String)
    (t : Int) (h : firstParse layouts s = some t) :
    ∃ (i : Nat) (L : List GoTok), layouts[i]? = some L ∧ goTimeParse L s = some t ∧
      ∀ (j : Nat) (L2 : List GoTok), j < i → layouts[j]? = some L2 → goTimeParse L2 s = none := by
  induction layouts with
  | nil => simp [firstParse] at h
  | cons L rest ih =>
    rw [firstParse] at h
    cases hL : goTimeParse L s with
    | some t2 =>
      rw [hL] at h
      refine ⟨0, L, by simp, ?_, ?_⟩
      · simpa [hL] using h
      · intro j L2 hj
        omega
    | none =>
      rw [hL] at h
      obtain ⟨i, L1, hi, hL1, hprev⟩ := ih h
      refine ⟨i + 1, L1, by simpa using hi, hL1, ?_⟩
      intro j L2 hj hget
      cases j with
      | zero =>
        simp only [List.getElem?_cons_zero, Option.some.injEq] at hget
        rw [← hget]; exact hL
      | succ k =>
        exact hprev k L2 (by omega) (by simpa using hget)

/-- If every layout fails, `firstParse` fails. -/
theorem firstParse_none (layouts : List (List GoTok)) (s : String)
    (h : ∀ (i : Nat) (L : List GoTok), layouts[i]? = some L → goTimeParse L s = none) :
    firstParse layouts s = none := by
  induction layouts with
  | nil => rfl
  | cons L rest ih =>
    rw [firstParse]
    rw [h 0 L (by simp)]
    exact ih fun i L2 hi => h (i + 1) L2 (by simpa using hi)

/-- C9: `parsePubDate` tries the eight formats in the spec order and
returns the first success (including dates carrying a fractional second
after the seconds field, which Go `time.Parse` accepts even without a
fractional-second layout token); the empty string and an unparseable
string yield no date, in which case the converted item is still included
with its publication date set to now. -/
theorem parsePubDate_format_order :
    (∀ s t, parsePubDate s = some t →
      ∃ (i : Nat) (L : List GoTok), pubDateLayouts[i]? = some L ∧ goTimeParse L s = some t ∧
        ∀ (j : Nat) (L2 : List GoTok), j < i → pubDateLayouts[j]? = some L2 →
          goTimeParse L2 s = none) ∧
    (∀ s, (∀ (i : Nat) (L : List GoTok), pubDateLayouts[i]? = some L → goTimeParse L s = none) →
      parsePubDate s = none) ∧
    parsePubDate "" = none ∧
    pubDateLayouts = [layoutRFC1123Z, layoutRFC1123, layoutRFC822Z,
      layoutRFC822, layoutRFC1123Z, layoutDayVar, layoutISO, layoutSQL] ∧
    parsePubDate "2006-01-02 15:04:05" = some 1136214245 ∧
    parsePubDate "Mon, 02 Jan 2006 15:04:05 -0700" = some 1136239445 ∧
    parsePubDate "2006-01-02 15:04:05.123" = some 1136214245 ∧
    parsePubDate "Mon, 02 Jan 2006 15:04:05.5 -0700" = some 1136239445 ∧
    (∀ cover now it, parsePubDate it.pubDate = none →
      (convertItem cover now it).publicationDate = now) ∧
    (∀ cover now (it : RssItem) l, it ∈ l → it.enclosureURL ≠ "" →
      it.guid ≠ "" → convertItem cover now it ∈ convertItems cover now l) := by
  refine ⟨?_, ?_, by decide, rfl, by decide, by decide, by decide, by decide,
    ?_, ?_⟩
  · intro s t h
    by_cases hs : s = ""
    · simp [parsePubDate, hs] at h
    · rw [parsePubDate, if_neg hs] at h
      exact firstParse_some_first _ _ _ h
  · intro s hall
    by_cases hs : s = ""
    · simp [parsePubDate, hs]
    · rw [parsePubDate, if_neg hs]
      exact firstParse_none _ _ hall
  · intro cover now it h
    simp [convertItem, h]
  · intro cover now it l hm he hgd
    exact mem_convertItems _ _ _ _ hm he hgd

/-- A decoded channel with three items: a valid one, one without a GUID
and one without an enclosure URL. -/
def chW : RssChannel :=
  { title := "Show", description := "Desc", link := "http://site",
    language := "ar", author := "", ownerName := "Owner",
    categories := [{ text := "", attrText := "News", subText := some "Politics" }],
    explicit := "Yes", imageURL := "http://img2", itunesImageHref := "http://img1",
    itunesAuthor := "ItA",
    items := [{ title := "A", description := "d1", guid := "ga", pubDate := "",
                duration := "90", summary := "", enclosureURL := "http://a.mp3",
                itunesImageHref := "", itunesEpisode := "1", itunesSeason := "",
                content := "" },
              { title := "B", description := "d2", guid := "", pubDate := "",
                duration := "", summary := "", enclosureURL := "http://b.mp3",
                itunesImageHref := "", itunesEpisode := "", itunesSeason := "",
                content := "" },
              { title := "C", description := "d3", guid := "gc", pubDate := "",
                duration := "", summary := "", enclosureURL := "",
                itunesImageHref := "", itunesEpisode := "", itunesSeason := "",
                content := "" }] }

/-- The normalized feed of `chW` (only the valid item survives; its date
falls back to now = 7). -/
def fWparsed : RSSFeed :=
  { title := "Show", description := "Desc", language := "ar", author := "ItA",
    coverImageURL := "http://img1", websiteURL := "http://site",
    category := "News", subcategory := "Politics", explicit := true,
    items := [{ title := "A", description := "d1", audioURL := "http://a.mp3",
                duration := 90, coverImageURL := "http://img1",
                publicationDate := 7, guid := "ga", episodeNumber := some 1,
                seasonNumber := none }] }

/-- Witness for C7 at the concrete channel `chW`. -/
theorem parseChannel_required_field_filter_witness :
    parseChannel chW 7 = Except.ok fWparsed ∧
    (fWparsed.items =
      (chW.items.filter fun it => it.enclosureURL != "" && it.guid != "").map
        (convertItem fWparsed.coverImageURL 7) ∧
    (∀ it ∈ chW.items, it.enclosureURL ≠ "" → it.guid ≠ "" →
      convertItem fWparsed.coverImageURL 7 it ∈ fWparsed.items) ∧
    (∀ x ∈ fWparsed.items, x.audioURL ≠ "" ∧ x.guid ≠ "")) :=
  ⟨by rfl, parseChannel_required_field_filter chW 7 fWparsed (by rfl)⟩

/-- An item whose date string matches no format. -/
def itNoDate : RssItem :=
  { title := "A", description := "d", guid := "g", pubDate := "not a date",
    duration := "", summary := "", enclosureURL := "http://a.mp3",
    itunesImageHref := "", itunesEpisode := "", itunesSeason := "",
    content := "" }

/-- Witness for C9: an unparseable date degrades to now and the item is
still included. -/
theorem parsePubDate_format_order_witness :
    (convertItem "c" 42 itNoDate).publicationDate = 42 ∧
    convertItem "c" 42 itNoDate ∈ convertItems "c" 42 [itNoDate] :=
  ⟨parsePubDate_format_order.2.2.2.2.2.2.2.2.1 "c" 42 itNoDate (by decide),
   parsePubDate_format_order.2.2.2.2.2.2.2.2.2 "c" 42 itNoDate [itNoDate]
     (by decide) (by decide) (by decide)⟩

/-! ## Claims about the sync coordinator (C3, C4, C5). -/

/-- A stored podcast with a configured feed URL. -/
def pW : Podcast :=
  { id := 1, podcasterID := 7, title := "T", description := "D",
    coverImageURL := "C", rssUrl := "http://feed", websiteURL := "W",
    language := "en", author := "A", category := "cat", subcategory := "sub",
    explicit := false, status := "active", createdAt := 0, updatedAt := 0,
    lastSyncedAt := none }

/-- A stored episode of `pW`. -/
def eW : Episode :=
  { id := 10, podcastID := 1, title := "E1", description := "ED",
    audioURL := "http://a.mp3", duration := 90, coverImageURL := "C",
    publicationDate := 100, guid := "g1", episodeNumber := some 1,
    seasonNumber := none, transcript := "", status := "active",
    createdAt := 0, updatedAt := 0 }

/-- A feed item agreeing with `eW` on every reconciled field. -/
def itW : RSSFeedItem :=
  { title := "E1", description := "ED", audioURL := "http://a.mp3",
    duration := 90, coverImageURL := "C", publicationDate := 100,
    guid := "g1", episodeNumber := some 1, seasonNumber := none }

/-- A feed agreeing with `pW` and `eW` on every reconciled field. -/
def fW : RSSFeed :=
  { title := "T", description := "D", language := "en", author := "A",
    coverImageURL := "C", websiteURL := "W", category := "cat",
    subcategory := "sub", explicit := false, items := [itW] }

/-- The store holding `pW` and `eW` with an empty sync log. -/
def stW : StoreState := { podcasts := [pW], episodes := [eW], syncLogs := [] }

/-- C4: a sync request for a podcast id already in the guard fails
immediately with the in-progress rejection, touching neither the store
nor the sync log; the guard after any call equals the guard before it
(the deferred delete runs on every exit path); and the behaviour of a
request whose podcast id is not in the guard does not depend on which
other podcast ids the guard holds. -/
theorem sync_guard_exclusion :
    (∀ env st guard pid now nid, pid ∈ guard →
      syncPodcast env st guard pid now nid =
        { outcome := .inProgress, state := st, guard := guard }) ∧
    (∀ env st guard pid now nid,
      (syncPodcast env st guard pid now nid).guard = guard) ∧
    (∀ env st g1 g2 pid now nid, pid ∉ g1 → pid ∉ g2 →
      (syncPodcast env st g1 pid now nid).outcome =
        (syncPodcast env st g2 pid now nid).outcome ∧
      (syncPodcast env st g1 pid now nid).state =
        (syncPodcast env st g2 pid now nid).state) := by
  refine ⟨?_, ?_, ?_⟩
  · intro env st guard pid now nid h
    simp [syncPodcast, h]
  · intro env st guard pid now nid
    unfold syncPodcast
    split <;> rfl
  · intro env st g1 g2 pid now nid h1 h2
    simp [syncPodcast, h1, h2]

/-- Witness for C4 at concrete inputs. -/
theorem sync_guard_exclusion_witness :
    (1 : Nat) ∈ [1] ∧ (1 : Nat) ∉ [2] ∧ (1 : Nat) ∉ ([] : List Nat) ∧
    syncPodcast (envOk fW) stW [1] 1 5 50 =
      { outcome := .inProgress, state := stW, guard := [1] } ∧
    (syncPodcast (envOk fW) stW [] 1 5 50).guard = [] ∧
    (syncPodcast (envOk fW) stW [2] 1 5 50).outcome =
      (syncPodcast (envOk fW) stW [] 1 5 50).outcome :=
  ⟨by decide, by decide, by decide,
   sync_guard_exclusion.1 (envOk fW) stW [1] 1 5 50 (by decide),
   sync_guard_exclusion.2.1 (envOk fW) stW [] 1 5 50,
   (sync_guard_exclusion.2.2 (envOk fW) stW [2] [] 1 5 50 (by decide)
     (by decide)).1⟩

/-- C5: when the combined fetch+parse step fails, the attempt stops with
no transaction: the podcast rows and episodes are untouched, and exactly
one failure log entry carrying the parser error message is appended. -/
theorem sync_fetch_parse_failure_no_tx (env : SyncEnv) (st : StoreState)
    (guard : List Nat) (pid : Nat) (now : Int) (nid : Nat) (p : Podcast)
    (msg : String) (hg : pid ∉ guard) (hload : env.getPodcastFails = false)
    (hp : findPodcast st.podcasts pid = some p) (hurl : p.rssUrl ≠ "")
    (henv : env.parseResult = .error msg) :
    syncPodcast env st guard pid now nid =
      { outcome := .parseFailed msg,
        state :=
          { st with syncLogs := st.syncLogs ++ [failLog pid 0 0 msg now] },
        guard := guard } := by
  simp [syncPodcast, hg, syncAttempt, hload, hp, hurl, henv]

/-- The environment of an attempt whose fetch returns HTTP 404. -/
def envHTTP404 : SyncEnv :=
  { getPodcastFails := false,
    parseResult := .error "feed request failed with status: 404 Not Found",
    beginTxFails := false, updatePodcastFails := false,
    getEpisodesFails := false, commitFails := false }

/-- Witness for C5: the 404 scenario at the concrete store `stW`. -/
theorem sync_fetch_parse_failure_no_tx_witness :
    syncPodcast envHTTP404 stW [] 1 5 50 =
      { outcome :=
          .parseFailed "feed request failed with status: 404 Not Found",
        state :=
          { stW with syncLogs := stW.syncLogs ++
              [failLog 1 0 0 "feed request failed with status: 404 Not Found" 5] },
        guard := [] } :=
  sync_fetch_parse_failure_no_tx envHTTP404 stW [] 1 5 50 pW
    "feed request failed with status: 404 Not Found"
    (by decide) rfl (by decide) (by decide) rfl

/-- `pW` with no feed URL configured. -/
def pWNoUrl : Podcast := { pW with rssUrl := "" }

/-- A store holding only the URL-less podcast. -/
def stWNoUrl : StoreState :=
  { podcasts := [pWNoUrl], episodes := [], syncLogs := [] }

/-- C3 counterexample: two attempts that pass the concurrency guard — one
failing at the missing-feed-URL check, one failing at the podcast load —
both return without writing any `SyncLogEntry`, so it is not the case
that every guarded attempt logs exactly one entry. -/
theorem sync_missing_url_logs_nothing :
    (1 : Nat) ∉ ([] : List Nat) ∧
    (syncPodcast (envOk fW) stWNoUrl [] 1 5 50).outcome = .noRSSUrl ∧
    (syncPodcast (envOk fW) stWNoUrl [] 1 5 50).state.syncLogs = [] ∧
    (syncPodcast { envOk fW with getPodcastFails := true } stW [] 1 5 50).outcome
      = .loadFailed ∧
    (syncPodcast { envOk fW with getPodcastFails := true }
        stW [] 1 5 50).state.syncLogs = [] := by
  refine ⟨by decide, by decide, by decide, by decide, by decide⟩

/-- C3 (amended): an attempt that passes the guard writes at most one
sync-log entry, and exactly one unless it stops at the podcast load or at
the missing-feed-URL check (those two paths return before any logging);
the entry names the podcast and is a success entry exactly when the
transaction committed. -/
theorem sync_log_discipline (env : SyncEnv) (st : StoreState)
    (guard : List Nat) (pid : Nat) (now : Int) (nid : Nat)
    (hg : pid ∉ guard) :
    ∃ tail,
      (syncPodcast env st guard pid now nid).state.syncLogs =
        st.syncLogs ++ tail ∧
      tail.length ≤ 1 ∧
      (tail = [] ↔
        ((syncPodcast env st guard pid now nid).outcome = .loadFailed ∨
         (syncPodcast env st guard pid now nid).outcome = .noRSSUrl)) ∧
      ∀ en ∈ tail, en.podcastID = pid ∧
        (en.success = true ↔
          ∃ a u, (syncPodcast env st guard pid now nid).outcome =
            .committed a u) := by
  simp only [syncPodcast, if_neg hg]
  unfold syncAttempt
  by_cases h1 : env.getPodcastFails = true
  · simp only [h1, if_true]
    exact ⟨[], by simp, by simp, by simp, by simp⟩
  · simp only [h1, if_false, Bool.false_eq_true]
    cases hp : findPodcast st.podcasts pid with
    | none => exact ⟨[], by simp, by simp, by simp, by simp⟩
    | some p =>
      by_cases hu : p.rssUrl = ""
      · simp only [hu, if_true, ite_true]
        exact ⟨[], by simp, by simp, by simp, by simp⟩
      · simp only [hu, if_false, ite_false]
        cases he : env.parseResult with
        | error msg =>
          refine ⟨[failLog pid 0 0 msg now], by simp, by simp, by simp, ?_⟩
          intro en hen
          simp only [List.mem_singleton] at hen
          subst hen
          exact ⟨rfl, by simp [failLog]⟩
        | ok feed =>
          by_cases hb : env.beginTxFails = true
          · simp only [hb, if_true]
            refine ⟨[failLog pid 0 0 "Failed to start transaction" now],
              by simp, by simp, by simp, ?_⟩
            intro en hen
            simp only [List.mem_singleton] at hen
            subst hen
            exact ⟨rfl, by simp [failLog]⟩
          · simp only [hb, if_false, Bool.false_eq_true]
            by_cases hup : env.updatePodcastFails = true
            · simp only [hup, if_true]
              refine ⟨[failLog pid 0 0 "Failed to update podcast metadata" now],
                by simp, by simp, by simp, ?_⟩
              intro en hen
              simp only [List.mem_singleton] at hen
              subst hen
              exact ⟨rfl, by simp [failLog]⟩
            · simp only [hup, if_false, Bool.false_eq_true]
              by_cases hge : env.getEpisodesFails = true
              · simp only [hge, if_true]
                refine ⟨[failLog pid 0 0 "Failed to get existing episodes" now],
                  by simp, by simp, by simp, ?_⟩
                intro en hen
                simp only [List.mem_singleton] at hen
                subst hen
                exact ⟨rfl, by simp [failLog]⟩
              · simp only [hge, if_false, Bool.false_eq_true]
                by_cases hc : env.commitFails = true
                · simp only [hc, if_true]
                  refine ⟨[failLog pid
                      (List.foldl (processItem pid (episodesOfP st.episodes pid) now)
                        { eps := st.episodes, added := 0, updatedCount := 0,
                          nextId := nid } feed.items).added
                      (List.foldl (processItem pid (episodesOfP st.episodes pid) now)
                        { eps := st.episodes, added := 0, updatedCount := 0,
                          nextId := nid } feed.items).updatedCount
                      "Failed to commit transaction" now],
                    by simp, by simp, by simp, ?_⟩
                  intro en hen
                  simp only [List.mem_singleton] at hen
                  subst hen
                  exact ⟨rfl, by simp [failLog]⟩
                · simp only [hc, if_false, Bool.false_eq_true]
                  refine ⟨[successLog pid
                      (List.foldl (processItem pid (episodesOfP st.episodes pid) now)
                        { eps := st.episodes, added := 0, updatedCount := 0,
                          nextId := nid } feed.items).added
                      (List.foldl (processItem pid (episodesOfP st.episodes pid) now)
                        { eps := st.episodes, added := 0, updatedCount := 0,
                          nextId := nid } feed.items).updatedCount now],
                    by simp, by simp, by simp, ?_⟩
                  intro en hen
                  simp only [List.mem_singleton] at hen
                  subst hen
                  exact ⟨rfl, by simp [successLog]⟩

/-- Witness for C3 (amended) at a committing run. -/
theorem sync_log_discipline_witness :
    (1 : Nat) ∉ ([] : List Nat) ∧
    ∃ tail,
      (syncPodcast (envOk fW) stW [] 1 5 50).state.syncLogs =
        stW.syncLogs ++ tail ∧
      tail.length ≤ 1 ∧
      (tail = [] ↔
        ((syncPodcast (envOk fW) stW [] 1 5 50).outcome = .loadFailed ∨
         (syncPodcast (envOk fW) stW [] 1 5 50).outcome = .noRSSUrl)) ∧
      ∀ en ∈ tail, en.podcastID = 1 ∧
        (en.success = true ↔
          ∃ a u, (syncPodcast (envOk fW) stW [] 1 5 50).outcome =
            .committed a u) :=
  ⟨by decide, sync_log_discipline (envOk fW) stW [] 1 5 50 (by decide)⟩

/-! ## C1: idempotence against an unchanged feed. -/

/-- The stored podcast metadata reflects the feed: every string field of
the feed is empty or equal to the stored value, and the explicit flags
agree.  These are exactly the negations of the per-field overwrite
conditions of the reconciliation. -/
def metaReflects (p : Podcast) (f : RSSFeed) : Bool :=
  (f.title == "" || f.title == p.title) &&
  (f.description == "" || f.description == p.description) &&
  (f.language == "" || f.language == p.language) &&
  (f.author == "" || f.author == p.author) &&
  (f.coverImageURL == "" || f.coverImageURL == p.coverImageURL) &&
  (f.websiteURL == "" || f.websiteURL == p.websiteURL) &&
  (f.category == "" || f.category == p.category) &&
  (f.subcategory == "" || f.subcategory == p.subcategory) &&
  (f.explicit == p.explicit)

/-- The stored episodes reflect the feed: every item with a GUID resolves
to a stored episode whose diff is empty. -/
def itemsReflect (initP : List Episode) (f : RSSFeed) : Bool :=
  f.items.all fun it =>
    it.guid == "" ||
      match lookupGuid initP it.guid with
      | some e0 => !(diffEpisode e0 it).1
      | none => false

/-- An overwrite condition whose negation holds leaves the stored
value. -/
theorem strFieldEq (a b : String) (h : a = "" ∨ a = b) :
    (if a ≠ "" ∧ a ≠ b then a else b) = b := by
  rcases h with h | h
  · rw [if_neg]
    rintro ⟨h1, _⟩
    exact h1 h
  · rw [h]
    simp

/-- Under `metaReflects`, reconciliation only touches `last_synced_at`. -/
theorem reconcile_reflects (p : Podcast) (f : RSSFeed) (now : Int)
    (hmeta : metaReflects p f = true) :
    reconcilePodcast p f now = { p with lastSyncedAt := some now } := by
  simp only [metaReflects, Bool.and_eq_true, Bool.or_eq_true,
    beq_iff_eq] at hmeta
  obtain ⟨⟨⟨⟨⟨⟨⟨⟨h1, h2⟩, h3⟩, h4⟩, h5⟩, h6⟩, h7⟩, h8⟩, h9⟩ := hmeta
  unfold reconcilePodcast
  rw [strFieldEq _ _ h1, strFieldEq _ _ h2, strFieldEq _ _ h3,
    strFieldEq _ _ h4, strFieldEq _ _ h5, strFieldEq _ _ h6,
    strFieldEq _ _ h7, strFieldEq _ _ h8, h9, if_neg (by simp)]

/-- Unpacking `itemsReflect` into the per-item property the loop
induction needs. -/
theorem itemsReflect_spec (initP : List Episode) (f : RSSFeed)
    (h : itemsReflect initP f = true) :
    ∀ it ∈ f.items, it.guid = "" ∨
      ∃ e0, lookupGuid initP it.guid = some e0 ∧
        (diffEpisode e0 it).1 = false := by
  intro it hm
  have hx := (List.all_eq_true.1 h) it hm
  by_cases hgd : it.guid = ""
  · exact .inl hgd
  · right
    cases hl : lookupGuid initP it.guid with
    | none =>
      rw [hl] at hx
      simp [hgd] at hx
    | some e0 =>
      rw [hl] at hx
      simp only [hgd, Bool.or_eq_true, beq_iff_eq, false_or,
        Bool.not_eq_true'] at hx
      exact ⟨e0, rfl, by simpa using hx⟩

/-- An episode loop in which every item diff is empty is a no-op. -/
theorem foldl_processItem_noop (pid : Nat) (initP : List Episode)
    (now : Int) (items : List RSSFeedItem) (S : LoopS)
    (h : ∀ it ∈ items, it.guid = "" ∨
      ∃ e0, lookupGuid initP it.guid = some e0 ∧
        (diffEpisode e0 it).1 = false) :
    items.foldl (processItem pid initP now) S = S := by
  induction items generalizing S with
  | nil => rfl
  | cons it rest ih =>
    rw [List.foldl_cons]
    have hstep : processItem pid initP now S it = S := by
      rcases h it (by simp) with hgd | ⟨e0, hl, hd⟩
      · simp [processItem, hgd]
      · by_cases hgd : it.guid = ""
        · simp [processItem, hgd]
        · simp [processItem, hgd, hl, hd]
    rw [hstep]
    exact ih S fun it2 hm => h it2 (by simp [hm])

/-- C1: when the stored state already reflects the feed and fetch, parse
and all database steps succeed, the run commits with
`episodes_added = 0, episodes_updated = 0`, the episode table is
untouched, and the podcast row changes only in `last_synced_at`. -/
theorem sync_unchanged_feed_idempotent (st : StoreState) (guard : List Nat)
    (pid : Nat) (now : Int) (nid : Nat) (p : Podcast) (f : RSSFeed)
    (hg : pid ∉ guard) (hp : findPodcast st.podcasts pid = some p)
    (hurl : p.rssUrl ≠ "") (hmeta : metaReflects p f = true)
    (hitems : itemsReflect (episodesOfP st.episodes pid) f = true) :
    syncPodcast (envOk f) st guard pid now nid =
      { outcome := .committed 0 0,
        state :=
          { podcasts := st.podcasts.map fun q =>
              if q.id = p.id then { p with lastSyncedAt := some now } else q,
            episodes := st.episodes,
            syncLogs := st.syncLogs ++ [successLog pid 0 0 now] },
        guard := guard } := by
  have hrec := reconcile_reflects p f now hmeta
  have hloop := foldl_processItem_noop pid (episodesOfP st.episodes pid) now
    f.items { eps := st.episodes, added := 0, updatedCount := 0, nextId := nid }
    (itemsReflect_spec _ _ hitems)
  simp only [syncPodcast, if_neg hg]
  unfold syncAttempt
  simp only [envOk, hp, hurl, if_false, ite_false, Bool.false_eq_true,
    hrec, hloop]

/-- Witness for C1 at the concrete store `stW` and matching feed `fW`. -/
theorem sync_unchanged_feed_idempotent_witness :
    metaReflects pW fW = true ∧
    itemsReflect (episodesOfP stW.episodes 1) fW = true ∧
    syncPodcast (envOk fW) stW [] 1 5 50 =
      { outcome := .committed 0 0,
        state :=
          { podcasts := stW.podcasts.map fun q =>
              if q.id = pW.id then { pW with lastSyncedAt := some 5 } else q,
            episodes := stW.episodes,
            syncLogs := stW.syncLogs ++ [successLog 1 0 0 5] },
        guard := [] } :=
  ⟨by decide, by decide,
   sync_unchanged_feed_idempotent stW [] 1 5 50 pW fW (by decide) (by decide)
     (by decide) (by decide) (by decide)⟩

/-! ## C2: GUID uniqueness through a sync run. -/

/-- A successful GUID lookup comes from the loaded episode list and
matches the GUID. -/
theorem lookupGuid_mem (l : List Episode) (g : String) (e0 : Episode)
    (h : lookupGuid l g = some e0) : e0 ∈ l ∧ e0.guid = g := by
  unfold lookupGuid at h
  refine ⟨List.mem_reverse.1 (List.mem_of_find?_eq_some h), ?_⟩
  simpa using List.find?_some h

/-- Membership in the per-podcast episode view. -/
theorem episodesOfP_mem (l : List Episode) (pid : Nat) (e : Episode) :
    e ∈ episodesOfP l pid ↔ e ∈ l ∧ e.podcastID = pid := by
  simp [episodesOfP, List.mem_filter]

/-- The updated copy produced by the episode diff keeps the identity
fields: id, podcast id and GUID are never overwritten. -/
theorem diffEpisode_keeps_identity (e0 : Episode) (it : RSSFeedItem) :
    ((diffEpisode e0 it).2).id = e0.id ∧
    ((diffEpisode e0 it).2).podcastID = e0.podcastID ∧
    ((diffEpisode e0 it).2).guid = e0.guid :=
  ⟨rfl, rfl, rfl⟩

/-- The invariant carried through the episode loop: ids stay below the
uuid counter and pairwise distinct, the GUIDs of the podcast under sync
stay pairwise distinct, every initially loaded episode survives with its
id and GUID, and every episode whose GUID was initially present is (by id
and GUID) one of the initially loaded episodes. -/
def LoopInv (initP : List Episode) (pid : Nat) (S : LoopS) : Prop :=
  (∀ e ∈ S.eps, e.id < S.nextId) ∧
  (S.eps.map fun e => e.id).Nodup ∧
  ((episodesOfP S.eps pid).map fun e => e.guid).Nodup ∧
  (∀ e0 ∈ initP, ∃ e ∈ episodesOfP S.eps pid,
    e.id = e0.id ∧ e.guid = e0.guid) ∧
  (∀ e ∈ episodesOfP S.eps pid, e.guid ∈ (initP.map fun x => x.guid) →
    ∃ e0 ∈ initP, e.id = e0.id ∧ e.guid = e0.guid)

/-- One loop iteration preserves the invariant. -/
theorem processItem_inv (initP : List Episode) (pid : Nat) (now : Int)
    (hinit : ∀ e0 ∈ initP, e0.podcastID = pid) (S : LoopS)
    (it : RSSFeedItem) (h : LoopInv initP pid S) :
    LoopInv initP pid (processItem pid initP now S it) := by
  obtain ⟨I1, I2, I3, I4, I5⟩ := h
  unfold processItem
  by_cases hgd : it.guid = ""
  · rw [if_pos hgd]
    exact ⟨I1, I2, I3, I4, I5⟩
  · rw [if_neg hgd]
    cases hl : lookupGuid initP it.guid with
    | none =>
      simp only []
      by_cases hdup : S.eps.any (fun e =>
          e.podcastID == (newEpisode pid S.nextId it now).podcastID &&
          e.guid == (newEpisode pid S.nextId it now).guid) = true
      · rw [if_pos hdup]
        exact ⟨fun e he => Nat.lt_succ_of_lt (I1 e he), I2, I3, I4, I5⟩
      · rw [if_neg hdup]
        have hnotin : ∀ e ∈ S.eps, ¬(e.podcastID = pid ∧ e.guid = it.guid) := by
          intro e he hcontra
          apply hdup
          rw [List.any_eq_true]
          exact ⟨e, he, by simp [newEpisode, hcontra.1, hcontra.2]⟩
        have hne1 : (newEpisode pid S.nextId it now).podcastID = pid := rfl
        have hne2 : (newEpisode pid S.nextId it now).guid = it.guid := rfl
        have hne3 : (newEpisode pid S.nextId it now).id = S.nextId := rfl
        have hfil : episodesOfP (S.eps ++ [newEpisode pid S.nextId it now]) pid =
            episodesOfP S.eps pid ++ [newEpisode pid S.nextId it now] := by
          unfold episodesOfP
          rw [List.filter_append]
          simp [hne1]
        refine ⟨?_, ?_, ?_, ?_, ?_⟩
        · intro e he
          rcases List.mem_append.1 he with he | he
          · exact Nat.lt_succ_of_lt (I1 e he)
          · simp only [List.mem_singleton] at he
            rw [he, hne3]
            exact Nat.lt_succ_self _
        · rw [List.map_append]
          simp only [List.map_cons, List.map_nil]
          rw [List.nodup_append]
          refine ⟨I2, List.nodup_singleton _, ?_⟩
          intro x hx hy
          obtain ⟨e, he, rfl⟩ := List.mem_map.1 hx
          simp only [List.mem_singleton] at hy
          rw [hne3] at hy
          exact absurd hy (Nat.ne_of_lt (I1 e he))
        · rw [hfil, List.map_append]
          simp only [List.map_cons, List.map_nil]
          rw [List.nodup_append]
          refine ⟨I3, List.nodup_singleton _, ?_⟩
          intro x hx hy
          obtain ⟨e, he, rfl⟩ := List.mem_map.1 hx
          simp only [List.mem_singleton] at hy
          rw [hne2] at hy
          obtain ⟨hemem, hep⟩ := (episodesOfP_mem _ _ _).1 he
          exact hnotin e hemem ⟨hep, hy⟩
        · intro e0 h0
          obtain ⟨e1, hm, hi, hgu⟩ := I4 e0 h0
          refine ⟨e1, ?_, hi, hgu⟩
          rw [hfil]
          exact List.mem_append_left _ hm
        · intro e he hg2
          rw [hfil] at he
          rcases List.mem_append.1 he with he | he
          · exact I5 e he hg2
          · simp only [List.mem_singleton] at he
            subst he
            rw [hne2] at hg2
            obtain ⟨e0, h0, hg0⟩ := List.mem_map.1 hg2
            obtain ⟨e1, hm1, _, hgu1⟩ := I4 e0 h0
            obtain ⟨hemem, hep⟩ := (episodesOfP_mem _ _ _).1 hm1
            exact absurd ⟨hep, by rw [hgu1, hg0]⟩ (hnotin e1 hemem)
    | some e0 =>
      obtain ⟨he0mem, he0guid⟩ := lookupGuid_mem _ _ _ hl
      have he0pid : e0.podcastID = pid := hinit e0 he0mem
      dsimp only
      by_cases hd : (diffEpisode e0 it).1 = true
      · rw [if_pos hd]
        obtain ⟨e1, he1mem, he1id, he1guid⟩ := I4 e0 he0mem
        obtain ⟨he1eps, he1pid⟩ := (episodesOfP_mem _ _ _).1 he1mem
        have hpt : ∀ e ∈ S.eps,
            ((fun e => if e.id = e0.id then
                { (diffEpisode e0 it).2 with updatedAt := now } else e) e).id
              = e.id ∧
            ((fun e => if e.id = e0.id then
                { (diffEpisode e0 it).2 with updatedAt := now } else e) e).guid
              = e.guid ∧
            ((fun e => if e.id = e0.id then
                { (diffEpisode e0 it).2 with updatedAt := now } else e)
                  e).podcastID = e.podcastID := by
          intro e he
          by_cases hid : e.id = e0.id
          · have : e = e1 :=
              List.inj_on_of_nodup_map I2 he he1eps (by rw [hid, he1id])
            subst this
            simp only [hid, if_pos]
            refine ⟨?_, ?_, ?_⟩
            · rw [(diffEpisode_keeps_identity e0 it).1]
            · rw [(diffEpisode_keeps_identity e0 it).2.2, he1guid]
            · rw [(diffEpisode_keeps_identity e0 it).2.1, he0pid, he1pid]
          · simp [hid]
        have hfilter : episodesOfP (S.eps.map fun e =>
              if e.id = e0.id then
                { (diffEpisode e0 it).2 with updatedAt := now } else e) pid =
            (episodesOfP S.eps pid).map fun e =>
              if e.id = e0.id then
                { (diffEpisode e0 it).2 with updatedAt := now } else e := by
          unfold episodesOfP
          rw [List.filter_map]
          exact congrArg _ (List.filter_congr fun a ha => by
            simp only [Function.comp_apply]
            rw [(hpt a ha).2.2])
        have hids : ((S.eps.map fun e =>
              if e.id = e0.id then
                { (diffEpisode e0 it).2 with updatedAt := now } else e).map
              fun e => e.id) = S.eps.map fun e => e.id := by
          rw [List.map_map]
          exact List.map_congr_left fun a ha => (hpt a ha).1
        have hguids : ((episodesOfP (S.eps.map fun e =>
              if e.id = e0.id then
                { (diffEpisode e0 it).2 with updatedAt := now } else e)
                pid).map fun e => e.guid) =
            (episodesOfP S.eps pid).map fun e => e.guid := by
          rw [hfilter, List.map_map]
          exact List.map_congr_left fun a ha =>
            (hpt a ((episodesOfP_mem _ _ _).1 ha).1).2.1
        refine ⟨?_, ?_, ?_, ?_, ?_⟩
        · intro e he
          obtain ⟨a, ha, rfl⟩ := List.mem_map.1 he
          rw [(hpt a ha).1]
          exact I1 a ha
        · rw [hids]
          exact I2
        · rw [hguids]
          exact I3
        · intro e2 h2
          obtain ⟨e3, hm3, hi3, hgu3⟩ := I4 e2 h2
          have he3eps := ((episodesOfP_mem _ _ _).1 hm3).1
          refine ⟨(fun e => if e.id = e0.id then
              { (diffEpisode e0 it).2 with updatedAt := now } else e) e3,
            ?_, ?_, ?_⟩
          · rw [hfilter]
            exact List.mem_map_of_mem _ hm3
          · exact ((hpt e3 he3eps).1).trans hi3
          · exact ((hpt e3 he3eps).2.1).trans hgu3
        · intro e he hg2
          rw [hfilter] at he
          obtain ⟨e3, hm3, rfl⟩ := List.mem_map.1 he
          have he3eps := ((episodesOfP_mem _ _ _).1 hm3).1
          rw [(hpt e3 he3eps).2.1] at hg2 ⊢
          rw [(hpt e3 he3eps).1]
          exact I5 e3 hm3 hg2
      · rw [if_neg hd]
        exact ⟨I1, I2, I3, I4, I5⟩

/-- The loop preserves the invariant over the whole item list. -/
theorem foldl_processItem_inv (initP : List Episode) (pid : Nat) (now : Int)
    (hinit : ∀ e0 ∈ initP, e0.podcastID = pid)
    (items : List RSSFeedItem) (S : LoopS) (h : LoopInv initP pid S) :
    LoopInv initP pid (items.foldl (processItem pid initP now) S) := by
  induction items generalizing S with
  | nil => exact h
  | cons it rest ih =>
    rw [List.foldl_cons]
    exact ih _ (processItem_inv initP pid now hinit S it h)

/-- C2: provided the stored ids are pairwise distinct and below the uuid
counter and the GUIDs under the synced podcast are pairwise distinct,
every run of `SyncPodcast` (any environment, any feed — also one with
duplicate GUIDs) preserves GUID uniqueness; every initially stored
episode survives in place (same id, same GUID), and no episode whose
GUID was initially present is anything but an initially stored episode:
a matching feed item is applied as an in-place update, never as a second
insert (the unique constraint rejects the duplicate insert attempt). -/
theorem sync_guid_unique (env : SyncEnv) (st : StoreState)
    (guard : List Nat) (pid : Nat) (now : Int) (nid : Nat)
    (hids : (st.episodes.map fun e => e.id).Nodup)
    (hfresh : ∀ e ∈ st.episodes, e.id < nid)
    (hguid : ((episodesOfP st.episodes pid).map fun e => e.guid).Nodup) :
    (((episodesOfP (syncPodcast env st guard pid now nid).state.episodes
        pid).map fun e => e.guid).Nodup) ∧
    (∀ e0 ∈ episodesOfP st.episodes pid,
      ∃ e ∈ episodesOfP
          (syncPodcast env st guard pid now nid).state.episodes pid,
        e.id = e0.id ∧ e.guid = e0.guid) ∧
    (∀ e ∈ episodesOfP
        (syncPodcast env st guard pid now nid).state.episodes pid,
      e.guid ∈ ((episodesOfP st.episodes pid).map fun x => x.guid) →
      ∃ e0 ∈ episodesOfP st.episodes pid,
        e.id = e0.id ∧ e.guid = e0.guid) := by
  have hinit : ∀ e0 ∈ episodesOfP st.episodes pid, e0.podcastID = pid :=
    fun e0 h0 => ((episodesOfP_mem _ _ _).1 h0).2
  have hbase : LoopInv (episodesOfP st.episodes pid) pid
      { eps := st.episodes, added := 0, updatedCount := 0, nextId := nid } :=
    ⟨hfresh, hids, hguid,
     fun e0 h0 => ⟨e0, h0, rfl, rfl⟩,
     fun e h0 _ => ⟨e, h0, rfl, rfl⟩⟩
  have hsplit : (syncPodcast env st guard pid now nid).state.episodes =
      st.episodes ∨
      ∃ feed, env.parseResult = Except.ok feed ∧
        (syncPodcast env st guard pid now nid).state.episodes =
          (feed.items.foldl
            (processItem pid (episodesOfP st.episodes pid) now)
            { eps := st.episodes, added := 0, updatedCount := 0,
              nextId := nid }).eps := by
    unfold syncPodcast
    by_cases hgg : pid ∈ guard
    · rw [if_pos hgg]
      exact .inl (by trivial)
    · rw [if_neg hgg]
      unfold syncAttempt
      by_cases h1 : env.getPodcastFails = true
      · simp only [h1, if_true]
        exact .inl (by trivial)
      · simp only [h1, if_false, Bool.false_eq_true]
        cases hp : findPodcast st.podcasts pid with
        | none => exact .inl (by trivial)
        | some p =>
          by_cases hu : p.rssUrl = ""
          · simp only [hu, ite_true]
            exact .inl (by trivial)
          · simp only [hu, ite_false]
            cases he : env.parseResult with
            | error msg => exact .inl (by trivial)
            | ok feed =>
              by_cases hb : env.beginTxFails = true
              · simp only [hb, if_true]
                exact .inl (by trivial)
              · simp only [hb, if_false, Bool.false_eq_true]
                by_cases hup : env.updatePodcastFails = true
                · simp only [hup, if_true]
                  exact .inl (by trivial)
                · simp only [hup, if_false, Bool.false_eq_true]
                  by_cases hge : env.getEpisodesFails = true
                  · simp only [hge, if_true]
                    exact .inl (by trivial)
                  · simp only [hge, if_false, Bool.false_eq_true]
                    by_cases hc : env.commitFails = true
                    · simp only [hc, if_true]
                      exact .inl (by trivial)
                    · simp only [hc, if_false, Bool.false_eq_true]
                      exact .inr ⟨feed, rfl, rfl⟩
  rcases hsplit with heq | ⟨feed, _, heq⟩
  · rw [heq]
    exact ⟨hguid, fun e0 h0 => ⟨e0, h0, rfl, rfl⟩,
      fun e h0 _ => ⟨e, h0, rfl, rfl⟩⟩
  · obtain ⟨_, _, J3, J4, J5⟩ :=
      foldl_processItem_inv (episodesOfP st.episodes pid) pid now hinit
        feed.items _ hbase
    rw [heq]
    exact ⟨J3, J4, J5⟩

/-- A feed containing two items that share one new GUID. -/
def fDupGuid : RSSFeed :=
  { fW with items := [{ itW with guid := "g2", title := "N1" },
                      { itW with guid := "g2", title := "N2" }] }

/-- Witness for C2 at a run over a feed with a duplicated GUID. -/
theorem sync_guid_unique_witness :
    (stW.episodes.map fun e => e.id).Nodup ∧
    (∀ e ∈ stW.episodes, e.id < 50) ∧
    ((episodesOfP stW.episodes 1).map fun e => e.guid).Nodup ∧
    ((((episodesOfP
        (syncPodcast (envOk fDupGuid) stW [] 1 5 50).state.episodes
        1).map fun e => e.guid).Nodup) ∧
    (∀ e0 ∈ episodesOfP stW.episodes 1,
      ∃ e ∈ episodesOfP
          (syncPodcast (envOk fDupGuid) stW [] 1 5 50).state.episodes 1,
        e.id = e0.id ∧ e.guid = e0.guid) ∧
    (∀ e ∈ episodesOfP
        (syncPodcast (envOk fDupGuid) stW [] 1 5 50).state.episodes 1,
      e.guid ∈ ((episodesOfP stW.episodes 1).map fun x => x.guid) →
      ∃ e0 ∈ episodesOfP stW.episodes 1,
        e.id = e0.id ∧ e.guid = e0.guid)) :=
  ⟨by decide, by decide, by decide,
   sync_guid_unique (envOk fDupGuid) stW [] 1 5 50 (by decide) (by decide)
     (by decide)⟩

end PodSync
